import Mathlib

/-!
Verification development for the tor_scraper module (tor_scraper.py).

The Python source is shallowly embedded as follows.

Python strings are modeled as `List Char`.  Python exceptions are modeled by
the inductive type `PyExc`; a Python function that may raise is modeled as a
Lean function returning `Except PyExc α`.

The external collaborators are modeled at their interface boundary:
the outcome of a single `curl.perform()` call is a value of `CurlPerform`
(either the raw response bytes or a raised `pycurl.error`); the outcome of a
single `stem.process.launch_tor_with_config` call is an oracle
`Nat → Except PyExc Nat` giving, per circuit index, either a process handle
or a raised exception.

The worker pool (`TorScraper.run` starting `thread_count` threads each
executing `TorScraper._tor_worker`) is modeled as a small-step transition
relation `PoolStep` over `PoolState`: each step is one worker either
observing the shared queue (a non-blocking `Queue.get(False)` that either
returns the head task or raises `Queue.Empty`), or finishing one dequeued
task (calling `_query` on an arbitrary network outcome and then invoking the
task handler, which either returns or raises).  Interleaving of the worker
threads is captured by the free choice of the worker index at each step;
reachability is `Relation.ReflTransGen PoolStep`.
-/

/-- Python exceptions that the embedded code can raise. -/
inductive PyExc where
  | oserror (msg : String)
  | typeError (msg : String)
  | indexError (msg : String)
  deriving DecidableEq

/-- Outcome of one `curl.perform()` call on a handle configured with a URL
and a SOCKS proxy port: either the response bytes written to the output
buffer, or a raised `pycurl.error` (the transport-level failure channel of
pycurl: connect refused, timeout, TLS failure, etc.). -/
inductive CurlPerform where
  | success (bytes : List UInt8)
  | curlError (code : Nat) (msg : String)
  deriving DecidableEq

/-- `TorScraper._query(url, socks_port)`, given the outcome `o` of its single
`curl.perform()` call.  The source wraps the perform call in
`try: ... except pycurl.error as exc:` which logs the URL and the cause and
returns `None`; on success the buffered bytes are returned.  The URL and the
socks port configure the curl handle but do not otherwise enter the control
flow, so they are not parameters here.  The `Except PyExc` layer records
whether an exception escapes `_query` to its caller. -/
def query (o : CurlPerform) : Except PyExc (Option (List UInt8)) :=
  match o with
  | CurlPerform.success b => Except.ok (some b)
  | CurlPerform.curlError _ _ => Except.ok none

/-- A scrape task as enqueued by `TorScraper.add_scrape`: the Python dict
with exactly the keys url, context and handler.  `κ` is the type of the
caller context values, `η` the type of handler callbacks; a Python value
that may be `None` is an `Option`. -/
structure ScrapeTask (κ η : Type) where
  url : List Char
  context : Option κ
  handler : Option η
  deriving DecidableEq

/-- `TorScraper.add_scrape(url, context=None, handler=None)`:
if handler is None it is replaced by `self._default_handler`
(modeled by the value `defaultHandler`), then the dict is pushed on the
tail of the scrape queue. -/
def add_scrape {κ η : Type} (defaultHandler : η) (url : List Char)
    (context : Option κ) (handler : Option η)
    (queue : List (ScrapeTask κ η)) : List (ScrapeTask κ η) :=
  let h : Option η :=
    match handler with
    | none => some defaultHandler
    | some f => some f
  queue ++ [{ url := url, context := context, handler := h }]

/-- The non-blocking dequeue `self._scrape_queue.get(False)` used by
`_tor_worker`: it returns immediately, with the head task of the FIFO queue
(`none` models the raised `Queue.Empty`). -/
def tryDequeue {α : Type} : List α → Option (α × List α)
  | [] => none
  | t :: rest => some (t, rest)

theorem tryDequeue_eq_none {α : Type} {q : List α}
    (h : tryDequeue q = none) : q = [] := by
  cases q with
  | nil => rfl
  | cons t rest => simp [tryDequeue] at h

theorem tryDequeue_eq_some {α : Type} {q : List α} {t : α} {rest : List α}
    (h : tryDequeue q = some (t, rest)) : q = t :: rest := by
  cases q with
  | nil => simp [tryDequeue] at h
  | cons a as =>
    simp [tryDequeue] at h
    rw [h.1, h.2]

/-- Python substring containment `sub in line` on `List Char` strings. -/
def containsSub : List Char → List Char → Bool
  | line, sub =>
    sub.isPrefixOf line ||
      match line with
      | [] => false
      | _ :: rest => containsSub rest sub

/-- The substring of `line` strictly after the last occurrence of `sep`,
or `none` when `sep` does not occur in `line`.  For a nonempty `sep` this is
exactly the element `line.rsplit(sep, 1)[1]` in Python when it exists. -/
def afterLast : List Char → List Char → Option (List Char)
  | [], _ => none
  | c :: rest, sep =>
    match afterLast rest sep with
    | some s => some s
    | none =>
      if sep.isPrefixOf (c :: rest) then
        some (List.drop sep.length (c :: rest))
      else none

theorem afterLast_isSome_iff_containsSub (sep : List Char) (hsep : sep ≠ [])
    (line : List Char) :
    (afterLast line sep).isSome = containsSub line sep := by
  induction line with
  | nil =>
    have : sep.isPrefixOf ([] : List Char) = false := by
      cases sep with
      | nil => exact absurd rfl hsep
      | cons c cs => rfl
    simp [afterLast, containsSub, this]
  | cons c rest ih =>
    rw [containsSub]
    cases hrec : afterLast rest sep with
    | some s =>
      have : containsSub rest sep = true := by
        rw [← ih, hrec]; rfl
      simp [afterLast, hrec, this]
    | none =>
      have hrest : containsSub rest sep = false := by
        rw [← ih, hrec]; rfl
      by_cases hp : sep.isPrefixOf (c :: rest)
      · simp [afterLast, hrec, hp, hrest]
      · simp [afterLast, hrec, hp, hrest]

def bootstrappedMarker : List Char := ("Bootstrapped ").data

def noticeMarker : List Char := ("[notice] ").data

/-- `TorScraper._tor_init_msg_handler(line)`: if the line contains
"Bootstrapped " it logs `line.rsplit('[notice] ', 1)[1]` at info level
(returned here as `ok (some suffix)`); other lines are ignored (`ok none`).
When '[notice] ' does not occur in the line, `rsplit` returns the one-element
list `[line]` and the `[1]` subscript raises an IndexError, which propagates
out of the handler. -/
def tor_init_msg_handler (line : List Char) : Except PyExc (Option (List Char)) :=
  if containsSub line bootstrappedMarker then
    match afterLast line noticeMarker with
    | some suffix => Except.ok (some suffix)
    | none => Except.error (PyExc.indexError ("list index out of range"))
  else Except.ok none

/-- The character of a single decimal digit, as produced by Python `str`. -/
def digitChar (d : Nat) : Char := Char.ofNat (48 + d)

/-- Numeric value of a decimal digit character. -/
def charToDigit (c : Char) : Nat := c.toNat - 48

theorem charToDigit_digitChar {d : Nat} (h : d < 10) :
    charToDigit (digitChar d) = d := by
  interval_cases d <;> decide

/-- Big-endian decimal digits of `n`, with explicit fuel (`fuel > n`
suffices, see `decodeDigits_natDigitsAux`). -/
def natDigitsAux : Nat → Nat → List Char
  | 0, _ => []
  | fuel + 1, n =>
    if n < 10 then [digitChar n]
    else natDigitsAux fuel (n / 10) ++ [digitChar (n % 10)]

/-- Python `str(n)` for a natural number `n`: its decimal representation. -/
def pyStr (n : Nat) : List Char := natDigitsAux (n + 1) n

/-- Decimal value of a digit string (left fold, most significant first). -/
def decodeDigits (s : List Char) : Nat :=
  s.foldl (fun acc c => 10 * acc + charToDigit c) 0

theorem decodeDigits_append_single (s : List Char) (c : Char) :
    decodeDigits (s ++ [c]) = 10 * decodeDigits s + charToDigit c := by
  simp [decodeDigits, List.foldl_append]

theorem decodeDigits_natDigitsAux :
    ∀ (fuel n : Nat), n < fuel → decodeDigits (natDigitsAux fuel n) = n := by
  intro fuel
  induction fuel with
  | zero => intro n h; omega
  | succ fuel ih =>
    intro n h
    by_cases hn : n < 10
    · simp [natDigitsAux, hn, decodeDigits, charToDigit_digitChar hn]
    · have h1 : n / 10 < fuel := by omega
      have h2 : n % 10 < 10 := Nat.mod_lt _ (by omega)
      simp only [natDigitsAux, hn, if_false]
      rw [decodeDigits_append_single, ih _ h1, charToDigit_digitChar h2]
      omega

theorem pyStr_injective : Function.Injective pyStr := by
  intro m n h
  have hm := decodeDigits_natDigitsAux (m + 1) m (by omega)
  have hn := decodeDigits_natDigitsAux (n + 1) n (by omega)
  rw [← hm, ← hn]
  unfold pyStr at h
  rw [h]

/-- The configuration dict handed to the TorScraper constructor.
The source reads the keys thread_count, socks_port_offset,
control_port_offset, data_directory, tor_cmd and public_ip_url. -/
structure TorConfig where
  threadCount : Nat
  socksPortOffset : Nat
  controlPortOffset : Nat
  dataDirectory : List Char
  torCmd : List Char
  publicIpUrl : List Char

/-- The per-index configuration passed by `TorScraper.run` to
`stem.process.launch_tor_with_config` (the source passes the two ports as
their decimal strings; the numeric values are kept here). -/
structure LaunchConfig where
  socksPort : Nat
  controlPort : Nat
  dataDirectory : List Char
  deriving DecidableEq

/-- The list of circuit-process configurations requested by the startup loop
`for index in range(self._config['thread_count'])` of `TorScraper.run`:
SocksPort is `socks_port_offset + index`, ControlPort is
`control_port_offset + index`, DataDirectory is
`data_directory + str(index)`. -/
def launchConfigs (cfg : TorConfig) : List LaunchConfig :=
  (List.range cfg.threadCount).map (fun index =>
    { socksPort := cfg.socksPortOffset + index
      controlPort := cfg.controlPortOffset + index
      dataDirectory := cfg.dataDirectory ++ pyStr index })

/-- Status of one worker thread executing `TorScraper._tor_worker`:
between queue observations (`idle`), holding one dequeued task whose fetch
and handler call are still in progress (`busy`), returned after observing
`Queue.Empty` (`done`), or terminated by an exception that the worker loop
does not catch — in the source the only try block guards `get`, so a raise
from the task handler ends the thread (`crashed`). -/
inductive WStatus (τ : Type) where
  | idle
  | busy (t : τ)
  | done
  | crashed
  deriving DecidableEq

/-- Shared state of a run of the worker pool: the scrape queue, the status
of each of the `thread_count` workers, and two histories — `dequeued`, the
tasks removed from the queue in removal order, and `handled`, the handler
invocations `(task, result)` in invocation order. -/
structure PoolState (τ : Type) where
  queue : List τ
  workers : List (WStatus τ)
  dequeued : List τ
  handled : List (τ × Option (List UInt8))
  deriving DecidableEq

/-- Pool state at the moment `TorScraper.run` starts the worker threads:
the queue holds the tasks enqueued via `add_scrape`, all `threadCount`
workers are about to enter the loop, nothing dequeued or handled yet. -/
def initState {τ : Type} (tasks : List τ) (threadCount : Nat) : PoolState τ :=
  { queue := tasks
    workers := List.replicate threadCount WStatus.idle
    dequeued := []
    handled := [] }

/-- One interleaved step of the worker pool; `hfault t r = true` means the
handler of task `t` raises when invoked on fetch result `r` (handlers are
opaque callbacks, so their behavior is an oracle parameter).

The four steps mirror the body of `_tor_worker`:
either an idle worker performs `get(False)` and the queue is empty
(`Queue.Empty` is caught by the `except` clause and the loop breaks), or the
`get` returns the head task; a busy worker then runs
`result = self._query(...)` on some network outcome `o` and calls
`scrape['handler'](scrape['url'], scrape['context'], result)`, after which
it either loops (handler returned, `task_done` called) or the handler's
exception propagates out of `_tor_worker` and the thread dies. -/
inductive PoolStep {τ : Type} (hfault : τ → Option (List UInt8) → Bool) :
    PoolState τ → PoolState τ → Prop where
  | observeEmpty (s : PoolState τ) (i : Nat) :
      s.workers.get? i = some WStatus.idle →
      tryDequeue s.queue = none →
      PoolStep hfault s { s with workers := s.workers.set i WStatus.done }
  | dequeueTask (s : PoolState τ) (i : Nat) (t : τ) (rest : List τ) :
      s.workers.get? i = some WStatus.idle →
      tryDequeue s.queue = some (t, rest) →
      PoolStep hfault s
        { s with queue := rest
                 workers := s.workers.set i (WStatus.busy t)
                 dequeued := s.dequeued ++ [t] }
  | handleReturn (s : PoolState τ) (i : Nat) (t : τ) (o : CurlPerform)
      (r : Option (List UInt8)) :
      s.workers.get? i = some (WStatus.busy t) →
      query o = Except.ok r →
      hfault t r = false →
      PoolStep hfault s
        { s with workers := s.workers.set i WStatus.idle
                 handled := s.handled ++ [(t, r)] }
  | handleRaise (s : PoolState τ) (i : Nat) (t : τ) (o : CurlPerform)
      (r : Option (List UInt8)) :
      s.workers.get? i = some (WStatus.busy t) →
      query o = Except.ok r →
      hfault t r = true →
      PoolStep hfault s
        { s with workers := s.workers.set i WStatus.crashed
                 handled := s.handled ++ [(t, r)] }

/-- Handler oracle for handlers that always return normally. -/
def neverRaises (τ : Type) : τ → Option (List UInt8) → Bool := fun _ _ => false

/-- Every worker thread returned normally from `_tor_worker` (each one
observed an empty queue and broke out of its loop). -/
def AllDone {τ : Type} (s : PoolState τ) : Prop :=
  ∀ w ∈ s.workers, w = WStatus.done

/-- Every worker thread has terminated, normally or by an uncaught handler
exception; this is the condition under which the `tor_thread.join()` loop in
`TorScraper.run` returns. -/
def AllStopped {τ : Type} (s : PoolState τ) : Prop :=
  ∀ w ∈ s.workers, w = WStatus.done ∨ w = WStatus.crashed

/-- No transition of the pool is possible from `s`. -/
def noFurtherStep {τ : Type} (hfault : τ → Option (List UInt8) → Bool)
    (s : PoolState τ) : Prop :=
  ∀ s', ¬ PoolStep hfault s s'

/-- The tasks currently being processed by busy workers. -/
def busyTasks {τ : Type} : List (WStatus τ) → List τ
  | [] => []
  | WStatus.busy t :: ws => t :: busyTasks ws
  | WStatus.idle :: ws => busyTasks ws
  | WStatus.done :: ws => busyTasks ws
  | WStatus.crashed :: ws => busyTasks ws

/-- The task a worker in status `w` is currently processing, if any. -/
def statusTasks {τ : Type} : WStatus τ → List τ
  | WStatus.busy t => [t]
  | WStatus.idle => []
  | WStatus.done => []
  | WStatus.crashed => []

theorem busyTasks_cons {τ : Type} (w : WStatus τ) (ws : List (WStatus τ)) :
    busyTasks (w :: ws) = statusTasks w ++ busyTasks ws := by
  cases w <;> rfl

theorem busyTasks_replicate_idle {τ : Type} (n : Nat) :
    busyTasks (List.replicate n (WStatus.idle : WStatus τ)) = [] := by
  induction n with
  | zero => rfl
  | succ n ih => simp [List.replicate, busyTasks, ih]

theorem busyTasks_of_allStopped {τ : Type} {ws : List (WStatus τ)}
    (h : ∀ w ∈ ws, w = WStatus.done ∨ w = WStatus.crashed) :
    busyTasks ws = [] := by
  induction ws with
  | nil => rfl
  | cons w ws ih =>
    have hw := h w (by simp)
    have hrest : ∀ w ∈ ws, w = WStatus.done ∨ w = WStatus.crashed :=
      fun x hx => h x (by simp [hx])
    rcases hw with hw | hw <;> subst hw <;> simp [busyTasks, ih hrest]

theorem wget_set_self {τ : Type} :
    ∀ (l : List τ) (i : Nat) (a b : τ), l.get? i = some b →
      (l.set i a).get? i = some a := by
  intro l
  induction l with
  | nil => intro i a b h; cases i <;> simp [List.get?] at h
  | cons x xs ih =>
    intro i a b h
    cases i with
    | zero => rfl
    | succ i => exact ih i a b h

theorem wget_set_ne {τ : Type} :
    ∀ (l : List τ) (i j : Nat) (a : τ), i ≠ j →
      (l.set i a).get? j = l.get? j := by
  intro l
  induction l with
  | nil => intro i j a _; cases i <;> rfl
  | cons x xs ih =>
    intro i j a hij
    cases i with
    | zero =>
      cases j with
      | zero => exact absurd rfl hij
      | succ j => rfl
    | succ i =>
      cases j with
      | zero => rfl
      | succ j => exact ih i j a (fun h => hij (by rw [h]))

theorem busyTasks_set {τ : Type} :
    ∀ (ws : List (WStatus τ)) (i : Nat) (w w' : WStatus τ),
      ws.get? i = some w →
      (busyTasks (ws.set i w') : Multiset τ) + (statusTasks w : Multiset τ) =
      (busyTasks ws : Multiset τ) + (statusTasks w' : Multiset τ) := by
  intro ws
  induction ws with
  | nil => intro i w w' h; cases i <;> simp [List.get?] at h
  | cons a ws ih =>
    intro i w w' h
    cases i with
    | zero =>
      have ha : a = w := by
        simp [List.get?] at h
        exact h
      subst ha
      simp only [List.set, busyTasks_cons, ← Multiset.coe_add]
      abel
    | succ i =>
      have hrec := ih i w w' h
      simp only [List.set, busyTasks_cons, ← Multiset.coe_add]
      calc (statusTasks a : Multiset τ) + ↑(busyTasks (ws.set i w')) + ↑(statusTasks w)
          = ↑(statusTasks a) + (↑(busyTasks (ws.set i w')) + ↑(statusTasks w)) := by abel
        _ = ↑(statusTasks a) + (↑(busyTasks ws) + ↑(statusTasks w')) := by rw [hrec]
        _ = ↑(statusTasks a) + ↑(busyTasks ws) + ↑(statusTasks w') := by abel

/-- Inductive invariant of the worker pool, relative to the initial task
list `tasks` and worker count `T`:
the worker list keeps its size; the dequeue history followed by the current
queue is exactly the initial enqueue order (FIFO, at-most-once removal);
every dequeued task is either already handled or held by exactly one busy
worker; and once any worker has observed an empty queue the queue is and
stays empty. -/
structure PoolInv {τ : Type} (tasks : List τ) (T : Nat) (s : PoolState τ) :
    Prop where
  lenW : s.workers.length = T
  fifo : s.dequeued ++ s.queue = tasks
  account : (s.handled.map Prod.fst : Multiset τ) + (busyTasks s.workers : Multiset τ)
              = (s.dequeued : Multiset τ)
  doneEmpty : WStatus.done ∈ s.workers → s.queue = []

theorem poolInv_init {τ : Type} (tasks : List τ) (T : Nat) :
    PoolInv tasks T (initState tasks T) := by
  refine ⟨?_, ?_, ?_, ?_⟩
  · simp [initState]
  · simp [initState]
  · simp [initState, busyTasks_replicate_idle]
  · intro h
    have := List.eq_of_mem_replicate (show WStatus.done ∈ _ from h)
    cases this

theorem poolInv_step {τ : Type} {tasks : List τ} {T : Nat}
    {hfault : τ → Option (List UInt8) → Bool} {s s' : PoolState τ}
    (inv : PoolInv tasks T s) (h : PoolStep hfault s s') :
    PoolInv tasks T s' := by
  cases h with
  | observeEmpty i hidle hq =>
    have hqe : s.queue = [] := tryDequeue_eq_none hq
    refine ⟨?_, ?_, ?_, ?_⟩
    · rw [List.length_set]; exact inv.lenW
    · exact inv.fifo
    · have hb := busyTasks_set s.workers i WStatus.idle WStatus.done hidle
      simp only [statusTasks, Multiset.coe_nil, add_zero] at hb
      show ((s.handled.map Prod.fst : List τ) : Multiset τ) +
          ↑(busyTasks (s.workers.set i WStatus.done)) = ↑s.dequeued
      rw [hb]
      exact inv.account
    · intro _; exact hqe
  | dequeueTask i t rest hidle hq =>
    have hqe : s.queue = t :: rest := tryDequeue_eq_some hq
    refine ⟨?_, ?_, ?_, ?_⟩
    · rw [List.length_set]; exact inv.lenW
    · show (s.dequeued ++ [t]) ++ rest = tasks
      rw [List.append_assoc, List.singleton_append, ← hqe]
      exact inv.fifo
    · have hb := busyTasks_set s.workers i WStatus.idle (WStatus.busy t) hidle
      simp only [statusTasks, Multiset.coe_nil, add_zero, Multiset.coe_singleton] at hb
      show ((s.handled.map Prod.fst : List τ) : Multiset τ) +
          ↑(busyTasks (s.workers.set i (WStatus.busy t))) = ↑(s.dequeued ++ [t])
      rw [hb, ← Multiset.coe_add, Multiset.coe_singleton, ← add_assoc, inv.account]
    · intro hd
      rcases List.mem_or_eq_of_mem_set hd with hmem | heq
      · have := inv.doneEmpty hmem
        rw [hqe] at this
        cases this
      · cases heq
  | handleReturn i t o r hbusy hq hf =>
    refine ⟨?_, ?_, ?_, ?_⟩
    · rw [List.length_set]; exact inv.lenW
    · exact inv.fifo
    · have hb := busyTasks_set s.workers i (WStatus.busy t) WStatus.idle hbusy
      simp only [statusTasks, Multiset.coe_nil, add_zero, Multiset.coe_singleton] at hb
      show (((s.handled ++ [(t, r)]).map Prod.fst : List τ) : Multiset τ) +
          ↑(busyTasks (s.workers.set i WStatus.idle)) = ↑s.dequeued
      rw [List.map_append, List.map_cons, List.map_nil, ← Multiset.coe_add,
        Multiset.coe_singleton]
      calc ((s.handled.map Prod.fst : List τ) : Multiset τ) + {t} +
            ↑(busyTasks (s.workers.set i WStatus.idle))
          = ↑(s.handled.map Prod.fst) +
              (↑(busyTasks (s.workers.set i WStatus.idle)) + {t}) := by abel
        _ = ↑(s.handled.map Prod.fst) + ↑(busyTasks s.workers) := by rw [hb]
        _ = ↑s.dequeued := inv.account
    · intro hd
      rcases List.mem_or_eq_of_mem_set hd with hmem | heq
      · exact inv.doneEmpty hmem
      · cases heq
  | handleRaise i t o r hbusy hq hf =>
    refine ⟨?_, ?_, ?_, ?_⟩
    · rw [List.length_set]; exact inv.lenW
    · exact inv.fifo
    · have hb := busyTasks_set s.workers i (WStatus.busy t) WStatus.crashed hbusy
      simp only [statusTasks, Multiset.coe_nil, add_zero, Multiset.coe_singleton] at hb
      show (((s.handled ++ [(t, r)]).map Prod.fst : List τ) : Multiset τ) +
          ↑(busyTasks (s.workers.set i WStatus.crashed)) = ↑s.dequeued
      rw [List.map_append, List.map_cons, List.map_nil, ← Multiset.coe_add,
        Multiset.coe_singleton]
      calc ((s.handled.map Prod.fst : List τ) : Multiset τ) + {t} +
            ↑(busyTasks (s.workers.set i WStatus.crashed))
          = ↑(s.handled.map Prod.fst) +
              (↑(busyTasks (s.workers.set i WStatus.crashed)) + {t}) := by abel
        _ = ↑(s.handled.map Prod.fst) + ↑(busyTasks s.workers) := by rw [hb]
        _ = ↑s.dequeued := inv.account
    · intro hd
      rcases List.mem_or_eq_of_mem_set hd with hmem | heq
      · exact inv.doneEmpty hmem
      · cases heq

theorem poolInv_reach {τ : Type} {hfault : τ → Option (List UInt8) → Bool}
    (tasks : List τ) (T : Nat) {s : PoolState τ}
    (h : Relation.ReflTransGen (PoolStep hfault) (initState tasks T) s) :
    PoolInv tasks T s := by
  induction h with
  | refl => exact poolInv_init tasks T
  | tail _ hstep ih => exact poolInv_step ih hstep

theorem pool_allDone_exactly_once {τ : Type}
    {hfault : τ → Option (List UInt8) → Bool} {tasks : List τ} {T : Nat}
    {s : PoolState τ} (hT : 0 < T)
    (hrun : Relation.ReflTransGen (PoolStep hfault) (initState tasks T) s)
    (hdone : AllDone s) :
    (s.handled.map Prod.fst : Multiset τ) = (tasks : Multiset τ) := by
  have inv := poolInv_reach tasks T hrun
  have hne : s.workers ≠ [] := by
    intro he
    have hl := inv.lenW
    rw [he] at hl
    simp at hl
    omega
  obtain ⟨w, hw⟩ := List.exists_mem_of_ne_nil s.workers hne
  have hwd := hdone w hw
  subst hwd
  have hq : s.queue = [] := inv.doneEmpty hw
  have hdeq : s.dequeued = tasks := by
    have hf := inv.fifo
    rw [hq, List.append_nil] at hf
    exact hf
  have hb : busyTasks s.workers = [] :=
    busyTasks_of_allStopped (fun x hx => Or.inl (hdone x hx))
  have ha := inv.account
  rw [hb, hdeq] at ha
  simpa using ha

theorem pool_no_tasks_no_invocations {τ : Type}
    {hfault : τ → Option (List UInt8) → Bool} {T : Nat} {s : PoolState τ}
    (hrun : Relation.ReflTransGen (PoolStep hfault) (initState ([] : List τ) T) s) :
    s.handled = [] := by
  have inv := poolInv_reach [] T hrun
  have hdeq : s.dequeued = [] := (List.append_eq_nil.mp inv.fifo).1
  have ha := inv.account
  rw [hdeq] at ha
  have h2 : s.handled = [] ∧ busyTasks s.workers = [] := by simpa using ha
  exact h2.1

theorem crashed_stays_crashed {τ : Type}
    {hfault : τ → Option (List UInt8) → Bool} {s s' : PoolState τ}
    (h : PoolStep hfault s s') (i : Nat)
    (hc : s.workers.get? i = some WStatus.crashed) :
    s'.workers.get? i = some WStatus.crashed := by
  cases h with
  | observeEmpty j hj hq =>
    by_cases hij : j = i
    · subst hij
      have := hj.symm.trans hc
      simp at this
    · show (s.workers.set j WStatus.done).get? i = _
      rw [wget_set_ne _ j i _ hij]
      exact hc
  | dequeueTask j t rest hj hq =>
    by_cases hij : j = i
    · subst hij
      have := hj.symm.trans hc
      simp at this
    · show (s.workers.set j (WStatus.busy t)).get? i = _
      rw [wget_set_ne _ j i _ hij]
      exact hc
  | handleReturn j t o r hj hq hf =>
    by_cases hij : j = i
    · subst hij
      have := hj.symm.trans hc
      simp at this
    · show (s.workers.set j WStatus.idle).get? i = _
      rw [wget_set_ne _ j i _ hij]
      exact hc
  | handleRaise j t o r hj hq hf =>
    by_cases hij : j = i
    · subst hij
      have := hj.symm.trans hc
      simp at this
    · show (s.workers.set j WStatus.crashed).get? i = _
      rw [wget_set_ne _ j i _ hij]
      exact hc

theorem step_sets_one_worker {τ : Type}
    {hfault : τ → Option (List UInt8) → Bool} {s s' : PoolState τ}
    (h : PoolStep hfault s s') :
    ∃ i w, s'.workers = s.workers.set i w := by
  cases h with
  | observeEmpty i hj hq => exact ⟨i, WStatus.done, rfl⟩
  | dequeueTask i t rest hj hq => exact ⟨i, WStatus.busy t, rfl⟩
  | handleReturn i t o r hj hq hf => exact ⟨i, WStatus.idle, rfl⟩
  | handleRaise i t o r hj hq hf => exact ⟨i, WStatus.crashed, rfl⟩

theorem done_transition_queue_empty {τ : Type}
    {hfault : τ → Option (List UInt8) → Bool} {s s' : PoolState τ}
    (h : PoolStep hfault s s') (i : Nat)
    (hidle : s.workers.get? i = some WStatus.idle)
    (hdone : s'.workers.get? i = some WStatus.done) :
    tryDequeue s.queue = none := by
  cases h with
  | observeEmpty j hj hq => exact hq
  | dequeueTask j t rest hj hq =>
    exfalso
    by_cases hij : j = i
    · subst hij
      have hset := wget_set_self s.workers j (WStatus.busy t) WStatus.idle hj
      have : some (WStatus.busy t) = some WStatus.done :=
        hset.symm.trans hdone
      simp at this
    · rw [show ({ s with
            queue := rest
            workers := s.workers.set j (WStatus.busy t)
            dequeued := s.dequeued ++ [t] } : PoolState τ).workers
          = s.workers.set j (WStatus.busy t) from rfl,
        wget_set_ne _ j i _ hij] at hdone
      have := hidle.symm.trans hdone
      simp at this
  | handleReturn j t o r hj hq hf =>
    exfalso
    by_cases hij : j = i
    · subst hij
      have := hj.symm.trans hidle
      simp at this
    · rw [show ({ s with
            workers := s.workers.set j WStatus.idle
            handled := s.handled ++ [(t, r)] } : PoolState τ).workers
          = s.workers.set j WStatus.idle from rfl,
        wget_set_ne _ j i _ hij] at hdone
      have := hidle.symm.trans hdone
      simp at this
  | handleRaise j t o r hj hq hf =>
    exfalso
    by_cases hij : j = i
    · subst hij
      have := hj.symm.trans hidle
      simp at this
    · rw [show ({ s with
            workers := s.workers.set j WStatus.crashed
            handled := s.handled ++ [(t, r)] } : PoolState τ).workers
          = s.workers.set j WStatus.crashed from rfl,
        wget_set_ne _ j i _ hij] at hdone
      have := hidle.symm.trans hdone
      simp at this

theorem step_dequeue_shape {τ : Type}
    {hfault : τ → Option (List UInt8) → Bool} {s s' : PoolState τ}
    (h : PoolStep hfault s s') :
    s'.dequeued = s.dequeued ∨
    ∃ i t, s'.dequeued = s.dequeued ++ [t] ∧ s.queue = t :: s'.queue ∧
      s.workers.get? i = some WStatus.idle ∧
      s'.workers = s.workers.set i (WStatus.busy t) := by
  cases h with
  | observeEmpty i hj hq => exact Or.inl rfl
  | dequeueTask i t rest hj hq =>
    exact Or.inr ⟨i, t, rfl, tryDequeue_eq_some hq, hj, rfl⟩
  | handleReturn i t o r hj hq hf => exact Or.inl rfl
  | handleRaise i t o r hj hq hf => exact Or.inl rfl

/-- The public-IP logging block inside the startup loop of
`TorScraper.run`, for circuit index `i`:

when `public_ip_url` is not the empty string, run evaluates
`self._logger.info('Public IP: ' + self._query(public_ip_url, socks_port_offset + index))`.
`_query` returns either the response bytes or None (`query` above); Python
string concatenation of `'Public IP: '` with None raises a TypeError, which
propagates out of `run`.  `probe i` is the network outcome of the probe
fetch for index `i`.  Returns the exception this block raises, if any. -/
def probeStep (probe : Nat → CurlPerform) (publicIpUrl : List Char)
    (i : Nat) : Option PyExc :=
  if publicIpUrl = [] then none
  else
    match query (probe i) with
    | Except.ok (some _) => none
    | Except.ok none =>
      some (PyExc.typeError ("cannot concatenate str and NoneType objects"))
    | Except.error e => some e

/-- The startup loop of `TorScraper.run`
(`for index in range(self._config['thread_count']): ...`), iterating over
indices `i, i+1, ..., i+count-1`: per index it launches a Tor process
(`launch i` is the outcome of `stem.process.launch_tor_with_config`, either
a process handle or a raised exception) and then runs the public-IP block.
Returns the handles appended to `tor_processes` in order, and the exception
that aborted the loop, if any.  There is no try/finally in `run`, so an
exception here propagates immediately. -/
def runStartup (launch : Nat → Except PyExc Nat) (probe : Nat → CurlPerform)
    (publicIpUrl : List Char) : Nat → Nat → List Nat × Option PyExc
  | _, 0 => ([], none)
  | i, count + 1 =>
    match launch i with
    | Except.error e => ([], some e)
    | Except.ok pid =>
      match probeStep probe publicIpUrl i with
      | some e => ([pid], some e)
      | none =>
        match runStartup launch probe publicIpUrl (i + 1) count with
        | (rest, exc) => (pid :: rest, exc)

/-- Observable outcome of one call to `TorScraper.run`: the process handles
appended to `tor_processes` (in launch order), the handles passed to
`tor_process.kill()` (in kill order), the exception that propagated out of
`run` (if any), and the handler invocations performed by the worker
threads. -/
structure RunOutcome (τ : Type) where
  started : List Nat
  killed : List Nat
  raised : Option PyExc
  handled : List (τ × Option (List UInt8))
  deriving DecidableEq

/-- Big-step semantics of `TorScraper.run` over the task list enqueued via
`add_scrape` before the call.  Two execution shapes exist in the source:

either the startup loop raises, in which case the exception propagates out
of `run` immediately — the worker threads are never started and, because
`run` has no try/finally, the kill loop is never reached (nothing killed);

or the startup loop completes, the worker threads run to completion — an
uncaught handler exception terminates only its own thread, and
`tor_thread.join()` returns normally for crashed threads as well, so the
main thread continues regardless of worker faults — and then the kill loop
calls `kill()` once on each entry of `tor_processes`. -/
inductive RunExec {τ : Type} (launch : Nat → Except PyExc Nat)
    (probe : Nat → CurlPerform) (hfault : τ → Option (List UInt8) → Bool)
    (cfg : TorConfig) (tasks : List τ) : RunOutcome τ → Prop where
  | startupRaised (started : List Nat) (e : PyExc) :
      runStartup launch probe cfg.publicIpUrl 0 cfg.threadCount
        = (started, some e) →
      RunExec launch probe hfault cfg tasks
        { started := started, killed := [], raised := some e, handled := [] }
  | completed (started : List Nat) (s : PoolState τ) :
      runStartup launch probe cfg.publicIpUrl 0 cfg.threadCount
        = (started, none) →
      Relation.ReflTransGen (PoolStep hfault)
        (initState tasks cfg.threadCount) s →
      AllStopped s →
      RunExec launch probe hfault cfg tasks
        { started := started, killed := started, raised := none,
          handled := s.handled }

/-- Claim C10 (confirmed): every task in the queue has a callable handler —
`add_scrape` substitutes the default logging handler `_default_handler` when
the handler argument is absent or None before enqueueing, and the enqueued
record consists of exactly the fields url, context and handler with the
caller's url and context stored unchanged (context defaults to None at the
Python call site). -/
theorem add_scrape_record_wellformed {κ η : Type} (defaultHandler : η)
    (url : List Char) (context : Option κ) (handler : Option η)
    (queue : List (ScrapeTask κ η)) :
    add_scrape defaultHandler url context handler queue
      = queue ++ [{ url := url, context := context,
                    handler := some (handler.getD defaultHandler) }]
  ∧ add_scrape defaultHandler url context none queue
      = queue ++ [{ url := url, context := context,
                    handler := some defaultHandler }]
  ∧ ((∀ t ∈ queue, t.handler ≠ none) →
      ∀ t ∈ add_scrape defaultHandler url context handler queue,
        t.handler ≠ none) := by
  refine ⟨?_, rfl, ?_⟩
  · cases handler <;> rfl
  · intro hq t ht
    rcases List.mem_append.mp ht with hmem | hmem
    · exact hq t hmem
    · have := List.mem_singleton.mp hmem
      subst this
      cases handler <;> simp

/-- Witness for C10 at a concrete call: `add_scrape` with handler None on
the empty queue enqueues the record with the default handler installed. -/
theorem add_scrape_record_wellformed_app :
    add_scrape (0 : Nat) (("http://a").data) (none : Option Nat) none []
      = [{ url := ("http://a").data, context := none, handler := some 0 }]
  ∧ ∀ t ∈ add_scrape (0 : Nat) (("http://a").data) (none : Option Nat) none
        ([] : List (ScrapeTask Nat Nat)),
      t.handler ≠ none := by
  have h := add_scrape_record_wellformed (0 : Nat) (("http://a").data)
    (none : Option Nat) (none : Option Nat) ([] : List (ScrapeTask Nat Nat))
  exact ⟨h.2.1, h.2.2 (by intro t ht; cases ht)⟩

/-- Claim C7 counterexample: the value `_query` produces on a failed fetch —
and which `_tor_worker` passes to the task handler — is the bare sentinel
None, identical for two different transport failures, so it carries neither
the cause nor the URL of the failure (those are only written to the log). -/
theorem query_failure_value_uninformative :
    query (CurlPerform.curlError 7 ("Failed to connect"))
      = Except.ok (none : Option (List UInt8))
  ∧ query (CurlPerform.curlError 28 ("Connection timed out"))
      = Except.ok (none : Option (List UInt8))
  ∧ query (CurlPerform.curlError 7 ("Failed to connect"))
      = query (CurlPerform.curlError 28 ("Connection timed out")) :=
  ⟨rfl, rfl, rfl⟩

/-- Claim C7 amended: on a failed fetch the handler receives the
uninformative sentinel None (the cause and URL are logged, not passed); on a
successful fetch it receives the raw response byte sequence verbatim. -/
theorem query_result_shape :
    (∀ (code : Nat) (msg : String),
      query (CurlPerform.curlError code msg)
        = Except.ok (none : Option (List UInt8)))
  ∧ (∀ bytes : List UInt8,
      query (CurlPerform.success bytes) = Except.ok (some bytes)) :=
  ⟨fun _ _ => rfl, fun _ => rfl⟩

/-- Claim C9 counterexample: a line that contains "Bootstrapped " but not
the notice prefix makes `_tor_init_msg_handler` raise an IndexError
(`rsplit` returns a one-element list and the `[1]` subscript is out of
range), so the handler is not total. -/
theorem bootstrap_line_without_notice_raises :
    tor_init_msg_handler (("Bootstrapped 50 percent done").data)
      = Except.error (PyExc.indexError ("list index out of range")) := by
  rfl

/-- Claim C9 amended: for every line containing both "Bootstrapped " and
"[notice] " the handler logs the suffix after the last "[notice] " without
raising; a line without "Bootstrapped " is ignored without raising; but a
line containing "Bootstrapped " and lacking "[notice] " raises IndexError. -/
theorem bootstrap_handler_behavior (line : List Char) :
    (containsSub line bootstrappedMarker = false →
      tor_init_msg_handler line = Except.ok none)
  ∧ (containsSub line bootstrappedMarker = true →
      containsSub line noticeMarker = true →
      ∃ suffix, afterLast line noticeMarker = some suffix ∧
        tor_init_msg_handler line = Except.ok (some suffix))
  ∧ (containsSub line bootstrappedMarker = true →
      containsSub line noticeMarker = false →
      tor_init_msg_handler line
        = Except.error (PyExc.indexError ("list index out of range"))) := by
  refine ⟨?_, ?_, ?_⟩
  · intro h
    simp [tor_init_msg_handler, h]
  · intro hb hn
    have hs := afterLast_isSome_iff_containsSub noticeMarker (by decide) line
    rw [hn] at hs
    obtain ⟨suffix, hsuf⟩ := Option.isSome_iff_exists.mp hs
    exact ⟨suffix, hsuf, by simp [tor_init_msg_handler, hb, hsuf]⟩
  · intro hb hn
    have hs := afterLast_isSome_iff_containsSub noticeMarker (by decide) line
    rw [hn] at hs
    have hnone : afterLast line noticeMarker = none := by
      cases h : afterLast line noticeMarker with
      | none => rfl
      | some v => rw [h] at hs; simp at hs
    simp [tor_init_msg_handler, hb, hnone]

/-- Witness for the amended C9 at a concrete bootstrap line: the suffix
after the notice prefix is surfaced. -/
theorem bootstrap_handler_behavior_app :
    containsSub (("x[notice] Bootstrapped 80").data) bootstrappedMarker = true
  ∧ ∃ suffix,
      afterLast (("x[notice] Bootstrapped 80").data) noticeMarker = some suffix ∧
      tor_init_msg_handler (("x[notice] Bootstrapped 80").data)
        = Except.ok (some suffix) :=
  ⟨by decide,
   (bootstrap_handler_behavior (("x[notice] Bootstrapped 80").data)).2.1
     (by decide) (by decide)⟩

/-- Claim C5 (confirmed): the startup loop requests exactly `thread_count`
circuit processes; the one at index i is configured with socks port
`socks_port_offset + i`, control port `control_port_offset + i` and the
per-index data directory `data_directory + str(i)`, and distinct indices
get distinct data directories. -/
theorem launch_configuration_per_index (cfg : TorConfig) :
    (launchConfigs cfg).length = cfg.threadCount
  ∧ (∀ i, i < cfg.threadCount →
      (launchConfigs cfg).get? i
        = some { socksPort := cfg.socksPortOffset + i
                 controlPort := cfg.controlPortOffset + i
                 dataDirectory := cfg.dataDirectory ++ pyStr i })
  ∧ (∀ i j, i < cfg.threadCount → j < cfg.threadCount → i ≠ j →
      cfg.dataDirectory ++ pyStr i ≠ cfg.dataDirectory ++ pyStr j) := by
  refine ⟨by simp [launchConfigs], ?_, ?_⟩
  · intro i hi
    unfold launchConfigs
    rw [List.get?_map, List.get?_range hi]
    rfl
  · intro i j hi hj hij hcontra
    exact hij (pyStr_injective (List.append_cancel_left hcontra))

def exampleCfg : TorConfig :=
  { threadCount := 3
    socksPortOffset := 9250
    controlPortOffset := 9350
    dataDirectory := ("tor_data/").data
    torCmd := ("tor").data
    publicIpUrl := [] }

/-- Witness for C5 at the configuration of the spec example: three circuits
with socks ports 9250, 9251, 9252, control ports 9350, 9351, 9352 and
pairwise distinct data directories tor_data/0, tor_data/1, tor_data/2. -/
theorem launch_configuration_per_index_app :
    (launchConfigs exampleCfg).length = 3
  ∧ (launchConfigs exampleCfg).get? 0
      = some { socksPort := 9250, controlPort := 9350,
               dataDirectory := ("tor_data/0").data }
  ∧ (launchConfigs exampleCfg).get? 1
      = some { socksPort := 9251, controlPort := 9351,
               dataDirectory := ("tor_data/1").data }
  ∧ (launchConfigs exampleCfg).get? 2
      = some { socksPort := 9252, controlPort := 9352,
               dataDirectory := ("tor_data/2").data }
  ∧ exampleCfg.dataDirectory ++ pyStr 1 ≠ exampleCfg.dataDirectory ++ pyStr 2 := by
  have h := launch_configuration_per_index exampleCfg
  refine ⟨h.1, ?_, ?_, ?_, h.2.2 1 2 (by decide) (by decide) (by decide)⟩
  · rw [h.2.1 0 (by decide)]; rfl
  · rw [h.2.1 1 (by decide)]; rfl
  · rw [h.2.1 2 (by decide)]; rfl

/-- Claim C3 (confirmed): `_query` never propagates an exception to its
caller — every transport-level failure of `curl.perform` (the pycurl.error
channel) is caught and turned into the return value None — and, in the
worker pool, a fetch failure for one task never prevents the delivery and
handling of the other queued tasks: for every interleaving reaching normal
termination, whatever the per-fetch network outcomes were, the multiset of
handled tasks is exactly the multiset of enqueued tasks. -/
theorem query_never_raises_and_failures_isolated :
    (∀ o : CurlPerform, ∃ v, query o = Except.ok v)
  ∧ (∀ (κ η : Type) (tasks : List (ScrapeTask κ η)) (T : Nat)
      (s : PoolState (ScrapeTask κ η)), 0 < T →
      Relation.ReflTransGen (PoolStep (neverRaises (ScrapeTask κ η)))
        (initState tasks T) s →
      AllDone s →
      (s.handled.map Prod.fst).Perm tasks) := by
  constructor
  · intro o
    cases o with
    | success b => exact ⟨some b, rfl⟩
    | curlError code msg => exact ⟨none, rfl⟩
  · intro κ η tasks T s hT hrun hdone
    exact Multiset.coe_eq_coe.mp (pool_allDone_exactly_once hT hrun hdone)

/-- Claim C1, amended: the unconditional exactly-once claim is false of the
code — a raising handler kills its worker thread and `run` can return with
later-queued tasks never handled (see the counterexample below, which runs
the pool of the amended theorem on a faulting handler).  What holds is the claim
restricted to executions in which every handler invocation returns normally
(the oracle `neverRaises`): with all tasks enqueued before `run` and any
worker count T > 0, by the time the worker phase finishes (every worker
observed the empty queue and returned, which is how the worker phase ends
absent handler faults), each task's handler has been invoked exactly once:
the multiset of handler invocations equals the multiset of enqueued tasks.
With zero enqueued tasks, every reachable state of the pool — in particular
the final one — has zero handler invocations. -/
theorem run_invokes_each_handler_exactly_once (κ η : Type)
    (tasks : List (ScrapeTask κ η)) (T : Nat) (s : PoolState (ScrapeTask κ η))
    (hT : 0 < T)
    (hrun : Relation.ReflTransGen (PoolStep (neverRaises (ScrapeTask κ η)))
      (initState tasks T) s)
    (hdone : AllDone s) :
    (s.handled.map Prod.fst : Multiset (ScrapeTask κ η))
        = (tasks : Multiset (ScrapeTask κ η))
  ∧ (tasks = [] → s.handled = []) := by
  constructor
  · exact pool_allDone_exactly_once hT hrun hdone
  · intro he
    subst he
    exact pool_no_tasks_no_invocations hrun

def exTask : ScrapeTask Unit Unit :=
  { url := ("http://a").data, context := none, handler := some () }

def exMid1 : PoolState (ScrapeTask Unit Unit) :=
  { queue := [], workers := [WStatus.busy exTask], dequeued := [exTask],
    handled := [] }

def exMid2 : PoolState (ScrapeTask Unit Unit) :=
  { queue := [], workers := [WStatus.idle], dequeued := [exTask],
    handled := [(exTask, none)] }

def exFinal : PoolState (ScrapeTask Unit Unit) :=
  { queue := [], workers := [WStatus.done], dequeued := [exTask],
    handled := [(exTask, none)] }

/-- A concrete three-step execution of a one-worker pool on one task whose
fetch fails (transport error, handler receives None): dequeue, handle,
observe empty and terminate. -/
theorem exFinal_reachable :
    Relation.ReflTransGen (PoolStep (neverRaises (ScrapeTask Unit Unit)))
      (initState [exTask] 1) exFinal := by
  have h1 : PoolStep (neverRaises (ScrapeTask Unit Unit))
      (initState [exTask] 1) exMid1 :=
    PoolStep.dequeueTask (initState [exTask] 1) 0 exTask [] rfl rfl
  have h2 : PoolStep (neverRaises (ScrapeTask Unit Unit)) exMid1 exMid2 :=
    PoolStep.handleReturn exMid1 0 exTask
      (CurlPerform.curlError 7 ("Failed to connect")) none rfl rfl rfl
  have h3 : PoolStep (neverRaises (ScrapeTask Unit Unit)) exMid2 exFinal :=
    PoolStep.observeEmpty exMid2 0 rfl rfl
  exact Relation.ReflTransGen.head h1
    (Relation.ReflTransGen.head h2 (Relation.ReflTransGen.single h3))

/-- Witness for C1 at a concrete run: one worker, one task, all hypotheses
discharged on the execution `exFinal_reachable`. -/
theorem run_invokes_each_handler_exactly_once_app :
    (0 : Nat) < 1
  ∧ AllDone exFinal
  ∧ (exFinal.handled.map Prod.fst : Multiset (ScrapeTask Unit Unit))
      = ([exTask] : Multiset (ScrapeTask Unit Unit)) := by
  refine ⟨by decide, ?_, ?_⟩
  · exact fun w hw => List.mem_singleton.mp hw
  · exact (run_invokes_each_handler_exactly_once Unit Unit [exTask] 1 exFinal
      (by decide) exFinal_reachable (fun w hw => List.mem_singleton.mp hw)).1

/-- Witness for C3 at concrete inputs: a failing fetch yields the value
`ok none` (no exception), and the execution `exFinal_reachable` — whose
single fetch fails — still ends with the task handled. -/
theorem query_never_raises_and_failures_isolated_app :
    (∃ v, query (CurlPerform.curlError 6 ("Could not resolve host"))
      = Except.ok v)
  ∧ (exFinal.handled.map Prod.fst).Perm [exTask] := by
  constructor
  · exact query_never_raises_and_failures_isolated.1
      (CurlPerform.curlError 6 ("Could not resolve host"))
  · exact query_never_raises_and_failures_isolated.2 Unit Unit [exTask] 1
      exFinal (by decide) exFinal_reachable
      (fun w hw => List.mem_singleton.mp hw)

/-- Claim C8 (confirmed): the scrape queue is FIFO — in every reachable pool
state the dequeue history followed by the remaining queue is exactly the
enqueue order, so no task is taken while an earlier one still waits and
each removal hands the head task to exactly one worker — and the dequeue
operation never blocks: it returns immediately with the head or with the
empty indication, and a worker transitions to done only when the dequeue
returned the empty indication. -/
theorem queue_fifo_each_task_once_nonblocking :
    (∀ (τ : Type), tryDequeue ([] : List τ) = none)
  ∧ (∀ (τ : Type) (t : τ) (rest : List τ),
      tryDequeue (t :: rest) = some (t, rest))
  ∧ (∀ (τ : Type) (hfault : τ → Option (List UInt8) → Bool)
      (tasks : List τ) (T : Nat) (s : PoolState τ),
      Relation.ReflTransGen (PoolStep hfault) (initState tasks T) s →
      s.dequeued ++ s.queue = tasks)
  ∧ (∀ (τ : Type) (hfault : τ → Option (List UInt8) → Bool)
      (s s' : PoolState τ), PoolStep hfault s s' →
      (∀ i, s.workers.get? i = some WStatus.idle →
        s'.workers.get? i = some WStatus.done →
        tryDequeue s.queue = none)
      ∧ (s'.dequeued = s.dequeued ∨
          ∃ i t, s'.dequeued = s.dequeued ++ [t] ∧ s.queue = t :: s'.queue ∧
            s.workers.get? i = some WStatus.idle ∧
            s'.workers = s.workers.set i (WStatus.busy t))) := by
  refine ⟨fun τ => rfl, fun τ t rest => rfl, ?_, ?_⟩
  · intro τ hfault tasks T s hrun
    exact (poolInv_reach tasks T hrun).fifo
  · intro τ hfault s s' hstep
    exact ⟨fun i => done_transition_queue_empty hstep i, step_dequeue_shape hstep⟩

/-- Witness for C8 at concrete inputs: the dequeue equations on concrete
queues and the FIFO equation at the end of the execution
`exFinal_reachable`. -/
theorem queue_fifo_each_task_once_nonblocking_app :
    tryDequeue ([] : List Nat) = none
  ∧ tryDequeue [5] = some (5, ([] : List Nat))
  ∧ exFinal.dequeued ++ exFinal.queue = [exTask] := by
  refine ⟨queue_fifo_each_task_once_nonblocking.1 Nat,
    queue_fifo_each_task_once_nonblocking.2.1 Nat 5 [], ?_⟩
  exact queue_fifo_each_task_once_nonblocking.2.2.1 (ScrapeTask Unit Unit)
    (neverRaises (ScrapeTask Unit Unit)) [exTask] 1 exFinal exFinal_reachable

/-- Handler oracle for handlers that raise on every invocation. -/
def alwaysRaises (τ : Type) : τ → Option (List UInt8) → Bool := fun _ _ => true

def faultTaskA : ScrapeTask Unit Unit :=
  { url := ("http://a").data, context := none, handler := some () }

def faultTaskB : ScrapeTask Unit Unit :=
  { url := ("http://b").data, context := none, handler := some () }

def faultMid : PoolState (ScrapeTask Unit Unit) :=
  { queue := [faultTaskB], workers := [WStatus.busy faultTaskA],
    dequeued := [faultTaskA], handled := [] }

def faultFinal : PoolState (ScrapeTask Unit Unit) :=
  { queue := [faultTaskB], workers := [WStatus.crashed],
    dequeued := [faultTaskA], handled := [(faultTaskA, some [])] }

/-- A concrete execution of a one-worker pool on two tasks in which the
handler of the first task raises: the worker dequeues the first task,
invokes its handler, and the uncaught exception terminates the thread. -/
theorem faultFinal_reachable :
    Relation.ReflTransGen (PoolStep (alwaysRaises (ScrapeTask Unit Unit)))
      (initState [faultTaskA, faultTaskB] 1) faultFinal := by
  have h1 : PoolStep (alwaysRaises (ScrapeTask Unit Unit))
      (initState [faultTaskA, faultTaskB] 1) faultMid :=
    PoolStep.dequeueTask (initState [faultTaskA, faultTaskB] 1) 0 faultTaskA
      [faultTaskB] rfl rfl
  have h2 : PoolStep (alwaysRaises (ScrapeTask Unit Unit)) faultMid faultFinal :=
    PoolStep.handleRaise faultMid 0 faultTaskA (CurlPerform.success [])
      (some []) rfl rfl rfl
  exact Relation.ReflTransGen.head h1 (Relation.ReflTransGen.single h2)

/-- Claim C4 counterexample: a handler exception is not caught at the worker
boundary.  In the execution `faultFinal_reachable` the single worker crashes
while the second task is still queued, and from the resulting state the
pool can make no further step at all — in particular the worker does not
continue to dequeue and process the next task, which is therefore never
handled. -/
theorem handler_fault_not_caught_counterexample :
    Relation.ReflTransGen (PoolStep (alwaysRaises (ScrapeTask Unit Unit)))
      (initState [faultTaskA, faultTaskB] 1) faultFinal
  ∧ faultFinal.workers = [WStatus.crashed]
  ∧ faultFinal.queue = [faultTaskB]
  ∧ faultFinal.handled.map Prod.fst = [faultTaskA]
  ∧ noFurtherStep (alwaysRaises (ScrapeTask Unit Unit)) faultFinal := by
  refine ⟨faultFinal_reachable, rfl, rfl, rfl, ?_⟩
  intro s' hstep
  cases hstep with
  | observeEmpty i hidle hq =>
    cases i with
    | zero => simp [faultFinal] at hidle
    | succ n => simp [faultFinal] at hidle
  | dequeueTask i t rest hidle hq =>
    cases i with
    | zero => simp [faultFinal] at hidle
    | succ n => simp [faultFinal] at hidle
  | handleReturn i t o r hbusy hq hf =>
    cases i with
    | zero => simp [faultFinal] at hbusy
    | succ n => simp [faultFinal] at hbusy
  | handleRaise i t o r hbusy hq hf =>
    cases i with
    | zero => simp [faultFinal] at hbusy
    | succ n => simp [faultFinal] at hbusy

/-- Claim C4 amended: a handler exception is not caught or logged by the
worker loop — it terminates the owning worker thread, which permanently
stops participating — but the fault is isolated exactly as far as the claim
says otherwise: it does not corrupt the queue (in every reachable state the
dequeue history followed by the remaining queue is the original enqueue
order) and it does not touch sibling workers (every step changes the status
of exactly the one worker that takes it). -/
theorem handler_fault_isolation (τ : Type)
    (hfault : τ → Option (List UInt8) → Bool) :
    (∀ (tasks : List τ) (T : Nat) (s : PoolState τ),
      Relation.ReflTransGen (PoolStep hfault) (initState tasks T) s →
      s.dequeued ++ s.queue = tasks)
  ∧ (∀ (s s' : PoolState τ) (i : Nat), PoolStep hfault s s' →
      s.workers.get? i = some WStatus.crashed →
      s'.workers.get? i = some WStatus.crashed)
  ∧ (∀ (s s' : PoolState τ), PoolStep hfault s s' →
      ∃ i w, s'.workers = s.workers.set i w) := by
  refine ⟨?_, ?_, ?_⟩
  · intro tasks T s hrun
    exact (poolInv_reach tasks T hrun).fifo
  · intro s s' i hstep hc
    exact crashed_stays_crashed hstep i hc
  · intro s s' hstep
    exact step_sets_one_worker hstep

def crashedPair : PoolState (ScrapeTask Unit Unit) :=
  { queue := [], workers := [WStatus.crashed, WStatus.idle], dequeued := [],
    handled := [] }

def crashedPairNext : PoolState (ScrapeTask Unit Unit) :=
  { queue := [], workers := [WStatus.crashed, WStatus.done], dequeued := [],
    handled := [] }

/-- Witness for the amended C4 at concrete states: after the crash in
`faultFinal_reachable` the queue still holds the untouched second task in
order, and in a two-worker pool a sibling of a crashed worker still steps
(here: observes the empty queue and terminates) while the crashed worker
stays crashed. -/
theorem handler_fault_isolation_app :
    faultFinal.dequeued ++ faultFinal.queue = [faultTaskA, faultTaskB]
  ∧ crashedPairNext.workers.get? 0 = some WStatus.crashed
  ∧ (∃ i w, crashedPairNext.workers = crashedPair.workers.set i w) := by
  have h := handler_fault_isolation (ScrapeTask Unit Unit)
    (alwaysRaises (ScrapeTask Unit Unit))
  have hstep : PoolStep (alwaysRaises (ScrapeTask Unit Unit))
      crashedPair crashedPairNext :=
    PoolStep.observeEmpty crashedPair 1 rfl rfl
  refine ⟨?_, ?_, ?_⟩
  · exact h.1 [faultTaskA, faultTaskB] 1 faultFinal faultFinal_reachable
  · exact h.2.1 crashedPair crashedPairNext 0 hstep rfl
  · exact h.2.2 crashedPair crashedPairNext hstep

def leakLaunch : Nat → Except PyExc Nat := fun i =>
  if i = 0 then Except.ok 100
  else Except.error (PyExc.oserror ("tor process failed to start"))

def leakProbe : Nat → CurlPerform := fun _ => CurlPerform.success []

def leakCfg : TorConfig :=
  { threadCount := 2
    socksPortOffset := 9250
    controlPortOffset := 9350
    dataDirectory := ("tor_data/").data
    torCmd := ("tor").data
    publicIpUrl := [] }

def leakOutcome : RunOutcome (ScrapeTask Unit Unit) :=
  { started := [100], killed := []
    raised := some (PyExc.oserror ("tor process failed to start"))
    handled := [] }

/-- Claim C2 counterexample: `run` has no try/finally, so on the execution
path where the launch of circuit index 1 raises after circuit index 0 has
started, the exception propagates before the kill loop is reached — the
started process is never killed (teardown count 0, startup count 1) and is
leaked. -/
theorem startup_failure_leaks_processes_counterexample :
    runStartup leakLaunch leakProbe leakCfg.publicIpUrl 0 2
      = ([100], some (PyExc.oserror ("tor process failed to start")))
  ∧ RunExec leakLaunch leakProbe (neverRaises (ScrapeTask Unit Unit)) leakCfg
      [] leakOutcome
  ∧ leakOutcome.started = [100]
  ∧ leakOutcome.killed = [] := by
  refine ⟨rfl, ?_, rfl, rfl⟩
  exact RunExec.startupRaised [100]
    (PyExc.oserror ("tor process failed to start")) rfl

/-- Claim C2 amended: on every execution of `run` on which the startup loop
(all process launches and public-IP probes) raises no exception, the kill
loop runs and kills each started circuit process exactly once — the kill
list is exactly the start list — and this holds regardless of worker or
handler faults in the worker phase, because an uncaught exception in a
worker thread terminates only that thread and `join` returns normally.  On
executions where startup raises, already-started processes are not killed
(see the counterexample): the teardown is not unconditional. -/
theorem run_kills_each_started_process_when_startup_succeeds (τ : Type)
    (launch : Nat → Except PyExc Nat) (probe : Nat → CurlPerform)
    (hfault : τ → Option (List UInt8) → Bool) (cfg : TorConfig)
    (tasks : List τ) (out : RunOutcome τ)
    (hexec : RunExec launch probe hfault cfg tasks out)
    (hok : out.raised = none) :
    out.killed = out.started := by
  cases hexec with
  | startupRaised started e heq => simp at hok
  | completed started s heq hrun hstop => rfl

def okLaunch : Nat → Except PyExc Nat := fun _ => Except.ok 100

def okCfg : TorConfig :=
  { threadCount := 1
    socksPortOffset := 9250
    controlPortOffset := 9350
    dataDirectory := ("tor_data/").data
    torCmd := ("tor").data
    publicIpUrl := [] }

def okOutcome : RunOutcome (ScrapeTask Unit Unit) :=
  { started := [100], killed := [100], raised := none, handled := [] }

/-- Witness for the amended C2 at a concrete run: one circuit starts, the
worker observes the empty queue and terminates, and the one started process
is killed. -/
theorem run_kills_each_started_process_when_startup_succeeds_app :
    RunExec okLaunch leakProbe (neverRaises (ScrapeTask Unit Unit)) okCfg []
      okOutcome
  ∧ okOutcome.raised = none
  ∧ okOutcome.killed = okOutcome.started := by
  have hexec : RunExec okLaunch leakProbe (neverRaises (ScrapeTask Unit Unit))
      okCfg [] okOutcome :=
    RunExec.completed [100]
      { queue := [], workers := [WStatus.done], dequeued := [], handled := [] }
      rfl
      (Relation.ReflTransGen.single
        (PoolStep.observeEmpty
          (initState ([] : List (ScrapeTask Unit Unit)) 1) 0 rfl rfl))
      (fun w hw => Or.inl (List.mem_singleton.mp hw))
  exact ⟨hexec, rfl,
    run_kills_each_started_process_when_startup_succeeds
      (ScrapeTask Unit Unit) okLaunch leakProbe
      (neverRaises (ScrapeTask Unit Unit)) okCfg [] okOutcome hexec rfl⟩

def probeCfg : TorConfig :=
  { threadCount := 1
    socksPortOffset := 9250
    controlPortOffset := 9350
    dataDirectory := ("tor_data/").data
    torCmd := ("tor").data
    publicIpUrl := ("https://api.ipify.org").data }

def failingProbe : Nat → CurlPerform :=
  fun _ => CurlPerform.curlError 7 ("Failed to connect to localhost port 9250")

/-- Claim C6 (code bug): the startup public-IP probe is gated on the
configured URL being nonempty and is issued once per circuit right after
launch, but its failure is fatal, contrary to the claim: when the probe
fetch fails, `_query` logs the error and returns None, and the enclosing
expression `self._logger.info('Public IP: ' + self._query(...))` then
raises a TypeError (str + None), which propagates out of `run` during
startup — aborting the run (and leaking the started process).  An empty
URL disables the probe, and a successful probe raises nothing. -/
theorem probe_failure_aborts_run :
    probeStep failingProbe probeCfg.publicIpUrl 0
      = some (PyExc.typeError ("cannot concatenate str and NoneType objects"))
  ∧ runStartup okLaunch failingProbe probeCfg.publicIpUrl 0 1
      = ([100],
         some (PyExc.typeError ("cannot concatenate str and NoneType objects")))
  ∧ RunExec okLaunch failingProbe (neverRaises (ScrapeTask Unit Unit))
      probeCfg []
      { started := [100], killed := []
        raised :=
          some (PyExc.typeError ("cannot concatenate str and NoneType objects"))
        handled := [] }
  ∧ probeStep failingProbe ([] : List Char) 0 = none
  ∧ runStartup okLaunch failingProbe ([] : List Char) 0 1 = ([100], none)
  ∧ probeStep (fun _ => CurlPerform.success [104, 105]) probeCfg.publicIpUrl 0
      = none := by
  refine ⟨?_, ?_, ?_, rfl, rfl, ?_⟩
  · rfl
  · rfl
  · exact RunExec.startupRaised [100]
      (PyExc.typeError ("cannot concatenate str and NoneType objects")) rfl
  · rfl

def lossOutcome : RunOutcome (ScrapeTask Unit Unit) :=
  { started := [100], killed := [100], raised := none
    handled := [(faultTaskA, some [])] }

/-- Claim C1 counterexample: the exactly-once claim as stated — no side
condition on handler behavior — is false of the code.  Concrete input:
thread_count 1 and two tasks enqueued before `run`, where the first task's
handler raises on invocation.  The worker dequeues the first task and dies
of the uncaught handler exception; `tor_thread.join()` returns normally for
the dead thread, so `run` returns (raising nothing, killing its process),
yet the handler of the second enqueued task has been invoked zero times,
not exactly once. -/
theorem faulting_handler_loses_task_counterexample :
    RunExec okLaunch leakProbe (alwaysRaises (ScrapeTask Unit Unit)) okCfg
      [faultTaskA, faultTaskB] lossOutcome
  ∧ lossOutcome.raised = none
  ∧ lossOutcome.handled.map Prod.fst = [faultTaskA]
  ∧ List.count faultTaskB (lossOutcome.handled.map Prod.fst) = 0
  ∧ List.count faultTaskB [faultTaskA, faultTaskB] = 1 := by
  refine ⟨?_, rfl, rfl, by decide, by decide⟩
  exact RunExec.completed [100] faultFinal rfl faultFinal_reachable
    (fun w hw => Or.inr (List.mem_singleton.mp hw))
